import Mathlib

/-!
Verification of the SaiyedAssistent voice client: a shallow embedding of
the playback scheduler, session state machine, message handler, PCM codec
and config loader, with theorems settling the specification's claims.
-/

namespace SaiyedAssistent

/-- Connection status, from `src/types.ts` (`ConnectionStatus`). -/
inductive ConnectionStatus where
  | DISCONNECTED
  | CONNECTING
  | CONNECTED
  | ERROR
deriving DecidableEq, Repr

/-- A scheduled playback buffer: its scheduled start time and its duration
(`source.start(nextStartTimeRef.current)` and `audioBuffer.duration` in
`src/App.tsx`, lines 126-137). -/
structure PlaybackBuffer where
  start : ℚ
  duration : ℚ
deriving DecidableEq, Repr

/-- The playback scheduler's mutable state in `src/App.tsx`:
`nextStartTimeRef` (line 55), `sourcesRef` (line 54) and the
`isSpeaking` flag (line 10). -/
structure SchedulerState where
  cursor : ℚ
  active : List PlaybackBuffer
  isSpeaking : Bool
deriving DecidableEq, Repr

/-- The audio branch of `onmessage` (`src/App.tsx`, lines 124-137): set the
speaking flag, clamp the cursor up to the current output-clock time, start
the buffer there, advance the cursor by the buffer's duration, and add the
buffer to the active set. -/
def enqueue (st : SchedulerState) (d t : ℚ) : SchedulerState :=
  let s := max st.cursor t
  { cursor := s + d
    active := ⟨s, d⟩ :: st.active
    isSpeaking := true }

/-- `stopAllAudio` (`src/App.tsx`, lines 58-65): stop every active source,
clear the active set, reset the cursor to 0, clear the speaking flag. -/
def stopAllAudio (_st : SchedulerState) : SchedulerState :=
  { cursor := 0, active := [], isSpeaking := false }

/-- The two transcript accumulators (`transcriptionRef`, `src/App.tsx`,
line 56). -/
structure Transcription where
  user : String
  model : String
deriving DecidableEq, Repr

/-- The application state touched by the message handler and the session
controller. -/
structure AppState where
  status : ConnectionStatus
  sched : SchedulerState
  transcription : Transcription
  currentTranscription : String
deriving DecidableEq, Repr

/-- An inbound `LiveServerMessage` as `onmessage` reads it
(`src/App.tsx`, lines 121-153): optional audio payload (decoded PCM bytes),
optional transcript fragments, a turn-complete flag and an interruption
flag. -/
structure ServerMessage where
  audio : Option (List ℕ)
  inputTranscription : Option String
  outputTranscription : Option String
  turnComplete : Bool
  interrupted : Bool

/-- Modelled from the spec: `decodeAudioData` lives in
`src/utils/audioUtils.ts`, which is not part of the sources; per §4.2 and
§3 a PlaybackBuffer is 24 kHz mono audio decoded from 16-bit PCM bytes, so
its duration is (byte count / 2) / 24000 seconds. -/
def bufferDuration (bytes : List ℕ) : ℚ :=
  ((bytes.length / 2 : ℕ) : ℚ) / 24000

/-- The audio block of `onmessage` (`src/App.tsx`, lines 123-138). -/
def applyAudio (st : AppState) (audio : Option (List ℕ)) (t : ℚ) : AppState :=
  match audio with
  | none => st
  | some bytes => { st with sched := enqueue st.sched (bufferDuration bytes) t }

/-- The input-transcription block of `onmessage`
(`src/App.tsx`, lines 140-143). -/
def applyInputTranscription (st : AppState) (frag : Option String) : AppState :=
  match frag with
  | none => st
  | some txt =>
    let user := st.transcription.user ++ txt
    { st with
      transcription := { st.transcription with user := user }
      currentTranscription := "আপনি: " ++ user }

/-- The output-transcription block of `onmessage`
(`src/App.tsx`, lines 144-147). -/
def applyOutputTranscription (st : AppState) (frag : Option String) : AppState :=
  match frag with
  | none => st
  | some txt =>
    let model := st.transcription.model ++ txt
    { st with
      transcription := { st.transcription with model := model }
      currentTranscription := "জেমিনি: " ++ model }

/-- The turn-complete block of `onmessage` (`src/App.tsx`, lines 148-150). -/
def applyTurnComplete (st : AppState) (tc : Bool) : AppState :=
  if tc then { st with transcription := ⟨"", ""⟩ } else st

/-- The interruption block of `onmessage` (`src/App.tsx`, lines 151-153). -/
def applyInterrupted (st : AppState) (int : Bool) : AppState :=
  if int then { st with sched := stopAllAudio st.sched } else st

/-- `onmessage` (`src/App.tsx`, lines 121-154): the four blocks run in
source order on each inbound message; `t` is the output clock's current
time when the audio block reads it. -/
def processMessage (st : AppState) (msg : ServerMessage) (t : ℚ) : AppState :=
  applyInterrupted
    (applyTurnComplete
      (applyOutputTranscription
        (applyInputTranscription
          (applyAudio st msg.audio t)
          msg.inputTranscription)
        msg.outputTranscription)
      msg.turnComplete)
    msg.interrupted

/-- The guard of `connect` (`src/App.tsx`, lines 67-69): a no-op unless the
status is exactly DISCONNECTED, in which case the status becomes
CONNECTING. -/
def connectStart (st : AppState) : AppState :=
  if st.status = ConnectionStatus.DISCONNECTED then
    { st with status := ConnectionStatus.CONNECTING }
  else st

/-- The run-time configuration (`AppConfig` in `src/types.ts`). -/
structure AppConfig where
  systemInstruction : String
  voiceName : String
deriving DecidableEq, Repr

/-- The built-in default configuration (`src/App.tsx`, lines 16-19). -/
def defaultConfig : AppConfig :=
  { systemInstruction := "আপনি একজন দক্ষ বাংলা এআই অ্যাসিস্ট্যান্ট।"
    voiceName := "Puck" }

/-- The JSON body of a successful `/config` response as `loadConfig` reads
it: each field may be absent. -/
structure ConfigData where
  systemInstruction : Option String
  voiceName : Option String

/-- The outcome of the `/config` fetch: a parsed OK response, or any
failure (network error, abort on the 3000 ms timeout, or a non-OK status,
all of which leave the current config untouched). -/
inductive FetchResult where
  | ok (data : ConfigData)
  | failure

/-- JavaScript's `a || b` on an optional string field: the default is used
when the field is absent or the empty string (both are falsy). -/
def jsOrElse (v : Option String) (d : String) : String :=
  match v with
  | none => d
  | some s => if s = "" then d else s

/-- The timeout armed around the `/config` fetch
(`src/App.tsx`, line 25), in milliseconds. -/
def configFetchTimeoutMs : ℕ := 3000

/-- `loadConfig` (`src/App.tsx`, lines 22-43): on a parsed OK response each
config field falls back field-wise to the current value when falsy; on any
failure the current config is kept unchanged. -/
def loadConfig (result : FetchResult) (current : AppConfig) : AppConfig :=
  match result with
  | .failure => current
  | .ok data =>
    { systemInstruction := jsOrElse data.systemInstruction current.systemInstruction
      voiceName := jsOrElse data.voiceName current.voiceName }

/-- Clamp a sample to [-1, 1]. -/
def clampSample (x : ℚ) : ℚ := max (-1) (min 1 x)

/-- Modelled from the spec: `encode`'s per-sample quantization from
`src/utils/audioUtils.ts` (not among the sources); §4.1 says encode clamps
each sample to [-1,1] and scales it to the signed 16-bit integer range,
with scale factor 32768 (§8: quantization step 1/32768). -/
def quantize (x : ℚ) : ℤ :=
  min 32767 (max (-32768) ⌊clampSample x * 32768⌋)

/-- Little-endian two's-complement bytes of a 16-bit integer. -/
def toBytes (n : ℤ) : List ℕ :=
  [(n % 65536).toNat % 256, (n % 65536).toNat / 256]

/-- Modelled from the spec: `encode` from `src/utils/audioUtils.ts` (not
among the sources); §4.1: clamp, scale to signed 16-bit, write
little-endian. -/
def encode (xs : List ℚ) : List ℕ :=
  xs.flatMap (fun x => toBytes (quantize x))

/-- Read a little-endian two's-complement 16-bit integer from two bytes. -/
def fromBytes (lo hi : ℕ) : ℤ :=
  if lo + 256 * hi < 32768 then (lo + 256 * hi : ℕ)
  else (lo + 256 * hi : ℕ) - 65536

/-- Modelled from the spec: `decode` from `src/utils/audioUtils.ts` (not
among the sources); §4.1: the inverse mapping, dividing by the same scale
factor, failing with `MalformedPayload` (here: `none`) when the byte
length is not a multiple of 2. -/
def decode : List ℕ → Option (List ℚ)
  | [] => some []
  | [_] => none
  | lo :: hi :: rest => (decode rest).map (fun xs => (fromBytes lo hi : ℚ) / 32768 :: xs)

/-! ## Helper lemmas -/

/-- `onmessage` never writes the connection status: none of its four blocks
touches `status`. -/
theorem processMessage_status (st : AppState) (msg : ServerMessage) (t : ℚ) :
    (processMessage st msg t).status = st.status := by
  unfold processMessage applyInterrupted applyTurnComplete
    applyOutputTranscription applyInputTranscription applyAudio
  cases msg.audio <;> cases msg.inputTranscription <;>
    cases msg.outputTranscription <;> cases msg.turnComplete <;>
    cases msg.interrupted <;> simp

/-- After a message whose interruption flag is set, the scheduler state is
exactly the flushed state: cursor 0, empty active set, speaking flag
cleared. -/
theorem processMessage_interrupted_sched (st : AppState) (msg : ServerMessage)
    (t : ℚ) (hint : msg.interrupted = true) :
    (processMessage st msg t).sched = ⟨0, [], false⟩ := by
  unfold processMessage applyInterrupted
  simp [hint, stopAllAudio]

/-! ## Claims -/

/-- C1: For every pair of consecutive enqueue operations with no flush
between them, if the output clock's current time at the second enqueue is
at most the first buffer's scheduled start time, then the second buffer's
scheduled start time equals the first buffer's start time plus the first
buffer's duration: back-to-back, no gap and no overlap. -/
theorem enqueue_back_to_back (st : SchedulerState) (d1 d2 t1 t2 : ℚ)
    (hd : 0 ≤ d1) (ht : t2 ≤ max st.cursor t1) :
    (enqueue (enqueue st d1 t1) d2 t2).active =
      ⟨max st.cursor t1 + d1, d2⟩ :: ⟨max st.cursor t1, d1⟩ :: st.active := by
  have h : max (max st.cursor t1 + d1) t2 = max st.cursor t1 + d1 :=
    max_eq_left (ht.trans (by linarith))
  simp [enqueue, h]

/-- Witness for `enqueue_back_to_back` at a concrete scheduler state. -/
theorem enqueue_back_to_back_witness :
    (enqueue (enqueue ⟨5, [], false⟩ 2 3) 4 1).active =
      ⟨max (5 : ℚ) 3 + 2, 4⟩ :: ⟨max (5 : ℚ) 3, 2⟩ :: [] :=
  enqueue_back_to_back ⟨5, [], false⟩ 2 4 3 1 (by norm_num)
    (by rw [max_eq_left (by norm_num : (3 : ℚ) ≤ 5)]; norm_num)

/-- C2: After any prior state, `stopAllAudio` (the flush) leaves the
active buffer set empty and resets the schedule cursor to 0, so the next
enqueue schedules its buffer to start at max(0, currentOutputTime). -/
theorem flush_resets (st : SchedulerState) (d t : ℚ) :
    (stopAllAudio st).active = [] ∧ (stopAllAudio st).cursor = 0 ∧
    (enqueue (stopAllAudio st) d t).active = [⟨max 0 t, d⟩] := by
  simp [stopAllAudio, enqueue]

/-- C3: An inbound interruption signal while Connected empties the active
buffer set, leaves the connection state Connected, and the next enqueued
buffer starts at the current output clock time (for a nonnegative clock). -/
theorem interruption_flushes (st : AppState) (msg : ServerMessage)
    (t d t2 : ℚ) (hc : st.status = ConnectionStatus.CONNECTED)
    (hint : msg.interrupted = true) (ht2 : 0 ≤ t2) :
    (processMessage st msg t).sched.active = [] ∧
    (processMessage st msg t).status = ConnectionStatus.CONNECTED ∧
    (enqueue (processMessage st msg t).sched d t2).active = [⟨t2, d⟩] := by
  have hs := processMessage_interrupted_sched st msg t hint
  refine ⟨by rw [hs], by rw [processMessage_status st msg t, hc], ?_⟩
  rw [hs]
  simp [enqueue, max_eq_right ht2]

/-- Witness for `interruption_flushes` at a concrete state and message. -/
theorem interruption_flushes_witness :
    (processMessage
        ⟨ConnectionStatus.CONNECTED, ⟨7, [⟨1, 2⟩], true⟩, ⟨"a", "b"⟩, "c"⟩
        ⟨none, none, none, false, true⟩ 9).sched.active = [] ∧
    (processMessage
        ⟨ConnectionStatus.CONNECTED, ⟨7, [⟨1, 2⟩], true⟩, ⟨"a", "b"⟩, "c"⟩
        ⟨none, none, none, false, true⟩ 9).status = ConnectionStatus.CONNECTED ∧
    (enqueue (processMessage
        ⟨ConnectionStatus.CONNECTED, ⟨7, [⟨1, 2⟩], true⟩, ⟨"a", "b"⟩, "c"⟩
        ⟨none, none, none, false, true⟩ 9).sched 3 4).active = [⟨4, 3⟩] :=
  interruption_flushes _ _ 9 3 4 rfl rfl (by norm_num)

/-- C4: `connect` moves the state machine to Connecting only from exactly
Disconnected; from any other status it is a no-op, and a second call
without an intervening disconnect or close changes nothing, so exactly one
Connecting transition occurs. -/
theorem connect_only_from_disconnected (st : AppState) :
    (st.status = ConnectionStatus.DISCONNECTED →
      (connectStart st).status = ConnectionStatus.CONNECTING) ∧
    (st.status ≠ ConnectionStatus.DISCONNECTED → connectStart st = st) ∧
    connectStart (connectStart st) = connectStart st := by
  by_cases h : st.status = ConnectionStatus.DISCONNECTED <;>
    simp [connectStart, h]

/-- Witness for `connect_only_from_disconnected` at a concrete state. -/
theorem connect_only_from_disconnected_witness :
    (connectStart
      ⟨ConnectionStatus.DISCONNECTED, ⟨0, [], false⟩, ⟨"", ""⟩, ""⟩).status =
      ConnectionStatus.CONNECTING :=
  (connect_only_from_disconnected _).1 rfl

/-- C8: A message carrying the turn-complete signal resets both transcript
accumulators (user and model) to the empty string. -/
theorem turn_complete_resets (st : AppState) (msg : ServerMessage) (t : ℚ)
    (htc : msg.turnComplete = true) :
    (processMessage st msg t).transcription = ⟨"", ""⟩ := by
  unfold processMessage applyInterrupted applyTurnComplete
  cases msg.interrupted <;> simp [htc, stopAllAudio]

/-- Witness for `turn_complete_resets` at a concrete state and message. -/
theorem turn_complete_resets_witness :
    (processMessage
        ⟨ConnectionStatus.CONNECTED, ⟨1, [], true⟩, ⟨"u", "m"⟩, "x"⟩
        ⟨none, some "hi", none, true, false⟩ 0).transcription = ⟨"", ""⟩ :=
  turn_complete_resets _ _ 0 rfl

/-- C10: A message with no audio payload and no interruption flag (only
transcript fragments, a turn-complete signal, or nothing) leaves the
schedule cursor and the active playback buffer set unchanged. -/
theorem no_audio_preserves_sched (st : AppState) (msg : ServerMessage)
    (t : ℚ) (ha : msg.audio = none) (hint : msg.interrupted = false) :
    (processMessage st msg t).sched.cursor = st.sched.cursor ∧
    (processMessage st msg t).sched.active = st.sched.active := by
  unfold processMessage applyInterrupted applyTurnComplete
    applyOutputTranscription applyInputTranscription applyAudio
  cases msg.inputTranscription <;> cases msg.outputTranscription <;>
    cases msg.turnComplete <;> simp [ha, hint]

/-- Witness for `no_audio_preserves_sched` at a concrete state and
message. -/
theorem no_audio_preserves_sched_witness :
    (processMessage
        ⟨ConnectionStatus.CONNECTED, ⟨6, [⟨2, 4⟩], true⟩, ⟨"u", "m"⟩, "x"⟩
        ⟨none, some "hi", none, true, false⟩ 0).sched.cursor = 6 ∧
    (processMessage
        ⟨ConnectionStatus.CONNECTED, ⟨6, [⟨2, 4⟩], true⟩, ⟨"u", "m"⟩, "x"⟩
        ⟨none, some "hi", none, true, false⟩ 0).sched.active = [⟨2, 4⟩] :=
  no_audio_preserves_sched _ _ 0 rfl rfl

/-- C7: When the `/config` fetch fails or is aborted by the 3000 ms
timeout, the UI proceeds with the built-in default configuration: the
default system instruction text and voice "Puck". -/
theorem config_failure_uses_defaults :
    loadConfig FetchResult.failure defaultConfig = defaultConfig ∧
    defaultConfig.systemInstruction =
      "আপনি একজন দক্ষ বাংলা এআই অ্যাসিস্ট্যান্ট।" ∧
    defaultConfig.voiceName = "Puck" ∧
    configFetchTimeoutMs = 3000 :=
  ⟨rfl, rfl, rfl, rfl⟩

/-- C9: Config fallback is field-wise: an absent or empty
systemInstruction or voiceName field falls back to the current value on
its own, while a present non-empty value of the other field is kept. -/
theorem config_fallback_fieldwise (data : ConfigData) (current : AppConfig) :
    ((data.systemInstruction = none ∨ data.systemInstruction = some "") →
      (loadConfig (FetchResult.ok data) current).systemInstruction =
        current.systemInstruction) ∧
    (∀ s, data.systemInstruction = some s → s ≠ "" →
      (loadConfig (FetchResult.ok data) current).systemInstruction = s) ∧
    ((data.voiceName = none ∨ data.voiceName = some "") →
      (loadConfig (FetchResult.ok data) current).voiceName =
        current.voiceName) ∧
    (∀ v, data.voiceName = some v → v ≠ "" →
      (loadConfig (FetchResult.ok data) current).voiceName = v) := by
  refine ⟨?_, ?_, ?_, ?_⟩
  · rintro (h | h) <;> simp [loadConfig, jsOrElse, h]
  · intro s hs hne
    simp [loadConfig, jsOrElse, hs, hne]
  · rintro (h | h) <;> simp [loadConfig, jsOrElse, h]
  · intro v hv hne
    simp [loadConfig, jsOrElse, hv, hne]

/-- Witness for `config_fallback_fieldwise`: an empty systemInstruction
with a non-empty voiceName falls back only on the first field. -/
theorem config_fallback_fieldwise_witness :
    (loadConfig (FetchResult.ok ⟨some "", some "Kore"⟩)
        defaultConfig).systemInstruction = defaultConfig.systemInstruction ∧
    (loadConfig (FetchResult.ok ⟨some "", some "Kore"⟩)
        defaultConfig).voiceName = "Kore" :=
  ⟨(config_fallback_fieldwise ⟨some "", some "Kore"⟩ defaultConfig).1
      (Or.inr rfl),
   (config_fallback_fieldwise ⟨some "", some "Kore"⟩ defaultConfig).2.2.2
      "Kore" rfl (by decide)⟩

/-! ## Codec lemmas -/

/-- Decoding the two little-endian two's-complement bytes of a 16-bit
integer recovers it. -/
theorem fromBytes_toBytes (n : ℤ) (h1 : -32768 ≤ n) (h2 : n ≤ 32767) :
    fromBytes ((n % 65536).toNat % 256) ((n % 65536).toNat / 256) = n := by
  unfold fromBytes
  have hm : (n % 65536).toNat % 256 + 256 * ((n % 65536).toNat / 256) =
      (n % 65536).toNat := Nat.mod_add_div _ _
  split_ifs with h <;> omega

/-- `decode` peels the two bytes of one sample off the front of the byte
stream. -/
theorem decode_toBytes_cons (n : ℤ) (rest : List ℕ) :
    decode (toBytes n ++ rest) =
      (decode rest).map (fun xs =>
        (fromBytes ((n % 65536).toNat % 256) ((n % 65536).toNat / 256) : ℚ)
          / 32768 :: xs) := rfl

/-- The quantized value always stays in the signed 16-bit range. -/
theorem quantize_range (x : ℚ) : -32768 ≤ quantize x ∧ quantize x ≤ 32767 := by
  unfold quantize
  exact ⟨le_min (by norm_num) (le_max_left _ _), min_le_left _ _⟩

/-- `decode ∘ encode` succeeds and yields exactly the per-sample quantized
values divided back by the scale factor. -/
theorem decode_encode_eq (xs : List ℚ) :
    decode (encode xs) =
      some (xs.map (fun x => ((quantize x : ℤ) : ℚ) / 32768)) := by
  induction xs with
  | nil => rfl
  | cons x rest ih =>
    have hq := quantize_range x
    have hfb := fromBytes_toBytes (quantize x) hq.1 hq.2
    show decode (toBytes (quantize x) ++ encode rest) = _
    rw [decode_toBytes_cons, ih, hfb]
    simp

/-- The quantization error of one clamped sample is at most one step. -/
theorem quantize_err (x : ℚ) (h1 : -1 ≤ x) (h2 : x ≤ 1) :
    |((quantize x : ℤ) : ℚ) / 32768 - x| ≤ 1 / 32768 := by
  have hc : clampSample x = x := by
    unfold clampSample
    rw [min_eq_right h2, max_eq_right h1]
  have hf1 : ((⌊x * 32768⌋ : ℤ) : ℚ) ≤ x * 32768 := Int.floor_le _
  have hf2 : x * 32768 < ⌊x * 32768⌋ + 1 := Int.lt_floor_add_one _
  have hfl : (-32768 : ℤ) ≤ ⌊x * 32768⌋ := by
    apply Int.le_floor.mpr
    push_cast
    linarith
  have hquant : quantize x = min 32767 ⌊x * 32768⌋ := by
    unfold quantize
    rw [hc, max_eq_right hfl]
  rcases le_or_lt ⌊x * 32768⌋ 32767 with hle | hgt
  · rw [hquant, min_eq_right hle, abs_le]
    constructor
    · have hf2q : x * 32768 < ((⌊x * 32768⌋ : ℤ) : ℚ) + 1 := by
        exact_mod_cast hf2
      linarith
    · linarith
  · have hfu : ⌊x * 32768⌋ ≤ 32768 := by
      have hb : x * 32768 ≤ ((32768 : ℤ) : ℚ) := by push_cast; linarith
      calc ⌊x * 32768⌋ ≤ ⌊((32768 : ℤ) : ℚ)⌋ := Int.floor_le_floor hb
        _ = 32768 := Int.floor_intCast _
    have hfe : ⌊x * 32768⌋ = 32768 := le_antisymm hfu hgt
    have hx : x = 1 := by
      rw [hfe] at hf1
      push_cast at hf1
      linarith
    rw [hquant, hfe, hx]
    rw [abs_le]
    constructor <;> norm_num

/-- Auxiliary for C6, by strong induction on the byte-list length:
`decode` fails exactly on odd-length inputs. -/
theorem decode_none_aux (n : ℕ) : ∀ bs : List ℕ, bs.length ≤ n →
    (decode bs = none ↔ bs.length % 2 = 1) := by
  induction n with
  | zero =>
    intro bs hb
    have hnil : bs = [] := List.length_eq_zero.mp (Nat.le_zero.mp hb)
    subst hnil
    simp [decode]
  | succ n ih =>
    intro bs hb
    match bs with
    | [] => simp [decode]
    | [a] => simp [decode]
    | lo :: hi :: rest =>
      have hr : rest.length ≤ n := by
        simp only [List.length_cons] at hb
        omega
      have hrest := ih rest hr
      have hmap : decode (lo :: hi :: rest) = none ↔ decode rest = none := by
        cases hdec : decode rest <;> simp [decode, hdec]
      rw [hmap, hrest]
      simp only [List.length_cons]
      omega

/-! ## Codec claims -/

/-- C5: For every sample sequence with values in [-1, 1], decoding the
encoding succeeds, preserves the length, and reproduces each sample within
one quantization step, 1/32768. -/
theorem decode_encode_roundtrip (xs : List ℚ)
    (h : ∀ x ∈ xs, -1 ≤ x ∧ x ≤ 1) :
    ∃ ys, decode (encode xs) = some ys ∧ ys.length = xs.length ∧
      ∀ i (hy : i < ys.length) (hx : i < xs.length),
        |ys.get ⟨i, hy⟩ - xs.get ⟨i, hx⟩| ≤ 1 / 32768 := by
  refine ⟨_, decode_encode_eq xs, by simp, ?_⟩
  intro i hy hx
  simp only [List.get_eq_getElem, List.getElem_map]
  have hmem := h (xs[i]) (List.getElem_mem hx)
  exact quantize_err _ hmem.1 hmem.2

/-- Witness for `decode_encode_roundtrip` on a concrete sample list. -/
theorem decode_encode_roundtrip_witness :
    ∃ ys, decode (encode [(0 : ℚ), 1/2, -1]) = some ys ∧
      ys.length = [(0 : ℚ), 1/2, -1].length ∧
      ∀ i (hy : i < ys.length) (hx : i < [(0 : ℚ), 1/2, -1].length),
        |ys.get ⟨i, hy⟩ - [(0 : ℚ), 1/2, -1].get ⟨i, hx⟩| ≤ 1 / 32768 :=
  decode_encode_roundtrip [(0 : ℚ), 1/2, -1] (by
    intro x hx
    simp only [List.mem_cons, List.not_mem_nil, or_false] at hx
    rcases hx with h | h | h <;> subst h <;> norm_num)

/-- C6: `decode` fails (MalformedPayload) exactly when the byte length is
not a multiple of 2; on well-formed input it reads each pair of bytes as a
little-endian signed 16-bit integer divided by the scale factor 32768 that
`encode` uses. -/
theorem decode_malformed_iff (bs : List ℕ) :
    (decode bs = none ↔ ¬ (2 ∣ bs.length)) ∧
    ∀ lo hi rest, decode (lo :: hi :: rest) =
      (decode rest).map (fun ys => (fromBytes lo hi : ℚ) / 32768 :: ys) := by
  constructor
  · rw [decode_none_aux bs.length bs le_rfl]
    omega
  · intro lo hi rest
    rfl

/-- Witness for `decode_malformed_iff`: a single stray byte is rejected. -/
theorem decode_malformed_iff_witness : decode [(7 : ℕ)] = none :=
  (decode_malformed_iff [7]).1.mpr (by decide)

end SaiyedAssistent
